import Mathlib

/-!
Shallow embedding of the `utc-datetime` Rust library (`src/lib.rs`).

Machine integers are modelled as `Nat` with explicit `% 2^32` at every
operation where the source's `u32` arithmetic can wrap (release-mode
semantics).  Code that can panic (`panic!` in `days_of_the_month`,
`.unwrap()` in `from_string` and `weekday`) is modelled in `Option`,
with `none` standing for a panic/abort.
-/

/-- `2^32`, the modulus of the source's `u32` arithmetic. -/
def U32 : Nat := 4294967296

/-- The `UtcDatetime` struct of the source, fields in declaration order
(`year: u16`, the rest `u8`). -/
structure UtcDatetime where
  year : Nat
  month : Nat
  day : Nat
  hour : Nat
  minute : Nat
  second : Nat
deriving DecidableEq

/-- The `IllegalTimeError` enum of the source. -/
inductive IllegalTimeError where
  | YearNumberError
  | MonthNumberError
  | DayNumberError
  | HourNumberError
  | MinuteNumberError
  | SecondNumberError
  | TimeStringError
deriving DecidableEq

instance {ε α : Type} [DecidableEq ε] [DecidableEq α] : DecidableEq (Except ε α) := fun x y =>
  match x, y with
  | Except.error a, Except.error b =>
    if h : a = b then isTrue (by rw [h]) else isFalse (fun he => by cases he; exact h rfl)
  | Except.error _, Except.ok _ => isFalse (fun he => by cases he)
  | Except.ok _, Except.error _ => isFalse (fun he => by cases he)
  | Except.ok a, Except.ok b =>
    if h : a = b then isTrue (by rw [h]) else isFalse (fun he => by cases he; exact h rfl)

/-- `leap_year`: divisible by 4 but not by 100, or divisible by 400. -/
def leap_year (year : Nat) : Bool :=
  (year % 4 == 0 && year % 100 != 0) || year % 400 == 0

/-- `days_of_the_year`: 366 in a leap year, otherwise 365. -/
def days_of_the_year (year : Nat) : Nat :=
  if leap_year year then 366 else 365

/-- `days_of_the_month`: day count per month; the source's
`panic!("Illegal number of days in the month.")` branch for a month
outside 1..=12 is modelled as `none`. -/
def days_of_the_month (year : Nat) (month : Nat) : Option Nat :=
  match month with
  | 1 | 3 | 5 | 7 | 8 | 10 | 12 => some 31
  | 4 | 6 | 9 | 11 => some 30
  | 2 => some (if leap_year year then 29 else 28)
  | _ => none

namespace UtcDatetime

/-- `UtcDatetime::new`: field validation in source order.  The call to
`days_of_the_month` is threaded through `Option.bind` so that its panic
branch (unreachable here) would propagate as `none`. -/
def new (year month day hour minute second : Nat) :
    Option (Except IllegalTimeError UtcDatetime) :=
  if year < 1970 then some (Except.error IllegalTimeError.YearNumberError)
  else if month = 0 ∨ month > 12 then some (Except.error IllegalTimeError.MonthNumberError)
  else (days_of_the_month year month).bind fun dm =>
    if day = 0 ∨ day > dm then some (Except.error IllegalTimeError.DayNumberError)
    else if hour > 23 then some (Except.error IllegalTimeError.HourNumberError)
    else if minute > 59 then some (Except.error IllegalTimeError.MinuteNumberError)
    else if second > 59 then some (Except.error IllegalTimeError.SecondNumberError)
    else some (Except.ok ⟨year, month, day, hour, minute, second⟩)

/-- `UtcDatetime::timestamp`: seconds since the epoch in wrapping `u32`
arithmetic.  Each `total_seconds += …` wraps modulo `2^32`; the u32
subtraction `day - 1` is modelled as the wrapping `(day + (U32-1)) % U32`.
A panic of `days_of_the_month` inside the month loop propagates as `none`. -/
def timestamp (dt : UtcDatetime) : Option (Except IllegalTimeError Nat) :=
  if dt.year < 1970 then some (Except.error IllegalTimeError.YearNumberError)
  else
    ((List.range' 1 (dt.month - 1)).foldl
        (fun acc i => acc.bind fun a =>
          (days_of_the_month dt.year i).map fun dn => (a + dn * 24 * 60 * 60) % U32)
        (some ((List.range' 1970 (dt.year - 1970)).foldl
          (fun acc i => (acc + days_of_the_year i * 24 * 60 * 60) % U32) 0))).map fun t2 =>
      Except.ok ((t2 + ((dt.day + (U32 - 1)) % U32) * 60 * 60 * 24
        + dt.hour * 60 * 60 + dt.minute * 60 + dt.second) % U32)

/-- `UtcDatetime::weekday`: `(4 + ts % 604800 / 86400) % 7`; the source's
`self.timestamp().unwrap()` panics on an `Err`, modelled as `none`. -/
def weekday (dt : UtcDatetime) : Option Nat :=
  (timestamp dt).bind fun r =>
    match r with
    | Except.ok ts => some ((4 + ts % (7 * 24 * 3600) / (24 * 3600)) % 7)
    | Except.error _ => none

end UtcDatetime

/-- The split predicate of `from_string`: `(x as u8) < 48 || x as u8 > 57`.
Rust's `as u8` keeps the low 8 bits of the scalar value, hence `% 256`. -/
def isSplitChar (c : Char) : Bool :=
  c.toNat % 256 < 48 || c.toNat % 256 > 57

/-- Helper for `tokens`: accumulates the current run of non-separator
characters (reversed) and emits it when a separator or the end is reached.
Together with dropping empty runs this is exactly
`split(pred).collect()` followed by `retain(|x| x.len() != 0)`. -/
def tokensAux : List Char → List Char → List (List Char)
  | [], acc => if acc.isEmpty then [] else [acc.reverse]
  | c :: cs, acc =>
    if isSplitChar c then
      if acc.isEmpty then tokensAux cs [] else acc.reverse :: tokensAux cs []
    else tokensAux cs (c :: acc)

/-- The non-empty pieces `from_string` keeps after splitting. -/
def tokens (s : List Char) : List (List Char) :=
  tokensAux s []

/-- An ASCII decimal digit `'0'..='9'` (scalar value 48..=57). -/
def isDigitChar (c : Char) : Bool :=
  48 ≤ c.toNat && c.toNat ≤ 57

/-- Rust's `str::parse::<uN>` on a token: succeeds iff the token is a
non-empty string of ASCII digits whose value fits (overflow fails). -/
def parseDigits (t : List Char) : Option Nat :=
  if t ≠ [] ∧ t.all isDigitChar then
    some (t.foldl (fun a c => a * 10 + (c.toNat - 48)) 0)
  else none

/-- `parse::<uN>()` including the width check (`mx` = type maximum). -/
def parseBounded (mx : Nat) (t : List Char) : Option Nat :=
  (parseDigits t).bind fun v => if v ≤ mx then some v else none

namespace UtcDatetime

/-- `UtcDatetime::from_string`: split on `isSplitChar`, keep non-empty
tokens, demand exactly 6, parse them as `u16,u8,u8,u8,u8,u8` (the
source's `.unwrap()` on a parse failure is a panic, modelled as `none`),
and hand the six numbers to `new`. -/
def fromString (s : String) : Option (Except IllegalTimeError UtcDatetime) :=
  if (tokens s.data).length ≠ 6 then some (Except.error IllegalTimeError.TimeStringError)
  else
    match ((tokens s.data).get? 0).bind (parseBounded 65535),
        ((tokens s.data).get? 1).bind (parseBounded 255),
        ((tokens s.data).get? 2).bind (parseBounded 255),
        ((tokens s.data).get? 3).bind (parseBounded 255),
        ((tokens s.data).get? 4).bind (parseBounded 255),
        ((tokens s.data).get? 5).bind (parseBounded 255) with
    | some y, some mo, some d, some h, some mi, some se => new y mo d h mi se
    | _, _, _, _, _, _ => none

end UtcDatetime

/-! ## Specification-side definitions

These restate, in exact (unbounded) integer arithmetic, the quantities the
specification describes; the theorems below compare the source embedding
against them. -/

/-- Days in a month per the spec's table: 31 for {1,3,5,7,8,10,12}, 30 for
{4,6,9,11}, and 29/28 for February depending on the leap-year rule. -/
def daysInMonthSpec (year month : Nat) : Nat :=
  if month = 2 then (if leap_year year then 29 else 28)
  else if month = 4 ∨ month = 6 ∨ month = 9 ∨ month = 11 then 30
  else 31

/-- Exact seconds contributed by the full years `1970 ≤ y < year`. -/
def yearSecs (year : Nat) : Nat :=
  ((List.range' 1970 (year - 1970)).map fun y => days_of_the_year y * 86400).sum

/-- Exact seconds contributed by the full months `1 ≤ m < month` of `year`. -/
def monthSecs (year month : Nat) : Nat :=
  ((List.range' 1 (month - 1)).map fun m => daysInMonthSpec year m * 86400).sum

/-- Exact (untruncated) epoch-second count of a datetime. -/
def epochSecondsSpec (dt : UtcDatetime) : Nat :=
  yearSecs dt.year + monthSecs dt.year dt.month
    + (dt.day - 1) * 86400 + dt.hour * 3600 + dt.minute * 60 + dt.second

/-- The construction invariants of `UtcDatetime` (exactly the checks of
`new`, stated positively). -/
def Valid (dt : UtcDatetime) : Prop :=
  1970 ≤ dt.year ∧ 1 ≤ dt.month ∧ dt.month ≤ 12 ∧
  1 ≤ dt.day ∧ dt.day ≤ daysInMonthSpec dt.year dt.month ∧
  dt.hour ≤ 23 ∧ dt.minute ≤ 59 ∧ dt.second ≤ 59

instance (dt : UtcDatetime) : Decidable (Valid dt) := by
  unfold Valid; infer_instance

/-- The comparison `#[derive(PartialOrd)]` generates for `UtcDatetime`:
fields compared in declaration order, first non-equal field decides. -/
def fieldCmp (a b : UtcDatetime) : Ordering :=
  (compare a.year b.year).then ((compare a.month b.month).then
    ((compare a.day b.day).then ((compare a.hour b.hour).then
      ((compare a.minute b.minute).then (compare a.second b.second)))))

/-- Lexicographic strict order on the six fields, as a proposition. -/
def lexLt (a b : UtcDatetime) : Prop :=
  a.year < b.year ∨ (a.year = b.year ∧ (a.month < b.month ∨ (a.month = b.month ∧
    (a.day < b.day ∨ (a.day = b.day ∧ (a.hour < b.hour ∨ (a.hour = b.hour ∧
      (a.minute < b.minute ∨ (a.minute = b.minute ∧ a.second < b.second)))))))))

/-- The spec's tokenizer: split on every character that is not an ASCII
decimal digit, keeping the maximal digit runs. -/
def tokensSpecAux : List Char → List Char → List (List Char)
  | [], acc => if acc.isEmpty then [] else [acc.reverse]
  | c :: cs, acc =>
    if !isDigitChar c then
      if acc.isEmpty then tokensSpecAux cs [] else acc.reverse :: tokensSpecAux cs []
    else tokensSpecAux cs (c :: acc)

/-- Maximal runs of ASCII digits, per the spec's words. -/
def tokensSpec (s : List Char) : List (List Char) :=
  tokensSpecAux s []

/-! ## Helper lemmas -/

lemma range'_concat_one (s n : Nat) : List.range' s (n+1) = List.range' s n ++ [s+n] := by
  have h : List.range' s (n+1) 1 = List.range' s n 1 ++ [s + 1 * n] := List.range'_concat s n
  simpa using h
example (m s n : Nat) : m ∈ List.range' s n ↔ s ≤ m ∧ m < s + n := List.mem_range'_1

lemma dim_some (y m : Nat) (h1 : 1 ≤ m) (h2 : m ≤ 12) :
    days_of_the_month y m = some (daysInMonthSpec y m) := by
  interval_cases m <;> simp [days_of_the_month, daysInMonthSpec]

lemma dim_pos (y m : Nat) : 1 ≤ daysInMonthSpec y m := by
  unfold daysInMonthSpec; split
  · split <;> omega
  · split <;> omega

lemma dim_le_31 (y m : Nat) : daysInMonthSpec y m ≤ 31 := by
  unfold daysInMonthSpec; split
  · split <;> omega
  · split <;> omega

lemma foldl_add_mod (M : Nat) (f : Nat → Nat) (l : List Nat) : ∀ a : Nat,
    l.foldl (fun acc x => (acc + f x) % M) (a % M) = (a + (l.map f).sum) % M := by
  induction l with
  | nil => intro a; simp
  | cons x xs ih =>
    intro a
    simp only [List.foldl_cons, List.map_cons, List.sum_cons]
    rw [Nat.mod_add_mod, ih (a + f x), Nat.add_assoc]

lemma foldl_bind_some (g : Nat → Option Nat) (f : Nat → Nat) (h : Nat → Nat → Nat)
    (l : List Nat) (hl : ∀ x ∈ l, g x = some (f x)) : ∀ a : Nat,
    l.foldl (fun acc x => acc.bind fun v => (g x).map fun d => h v d) (some a)
      = some (l.foldl (fun v x => h v (f x)) a) := by
  induction l with
  | nil => intro a; rfl
  | cons x xs ih =>
    intro a
    simp only [List.foldl_cons, Option.bind_some, hl x (List.mem_cons_self x xs)]
    exact ih (fun z hz => hl z (List.mem_cons_of_mem x hz)) (h a (f x))


lemma yearSecs_succ (y : Nat) (h : 1970 ≤ y) :
    yearSecs (y + 1) = yearSecs y + days_of_the_year y * 86400 := by
  unfold yearSecs
  rw [show y + 1 - 1970 = (y - 1970) + 1 by omega, range'_concat_one,
    List.map_append, List.sum_append]
  simp [show 1970 + (y - 1970) = y by omega]

lemma yearSecs_le_succ (y : Nat) : yearSecs y ≤ yearSecs (y + 1) := by
  by_cases h : 1970 ≤ y
  · rw [yearSecs_succ y h]; omega
  · have h1 : y - 1970 = 0 := by omega
    have h2 : y + 1 - 1970 = 0 := by omega
    unfold yearSecs; rw [h1, h2]

lemma yearSecs_mono : ∀ {y1 y2 : Nat}, y1 ≤ y2 → yearSecs y1 ≤ yearSecs y2 := by
  intro y1 y2 h
  induction y2 with
  | zero => have : y1 = 0 := by omega
            rw [this]
  | succ n ih =>
    rcases Nat.lt_or_ge y1 (n + 1) with h' | h'
    · exact le_trans (ih (by omega)) (yearSecs_le_succ n)
    · have : y1 = n + 1 := by omega
      rw [this]

lemma monthSecs_succ (y m : Nat) (h : 1 ≤ m) :
    monthSecs y (m + 1) = monthSecs y m + daysInMonthSpec y m * 86400 := by
  unfold monthSecs
  rw [show m + 1 - 1 = (m - 1) + 1 by omega, range'_concat_one,
    List.map_append, List.sum_append]
  simp [show 1 + (m - 1) = m by omega]

lemma monthSecs_le_succ (y m : Nat) : monthSecs y m ≤ monthSecs y (m + 1) := by
  by_cases h : 1 ≤ m
  · rw [monthSecs_succ y m h]; omega
  · have : m = 0 := by omega
    subst this
    unfold monthSecs; simp

lemma monthSecs_mono (y : Nat) : ∀ {m1 m2 : Nat}, m1 ≤ m2 → monthSecs y m1 ≤ monthSecs y m2 := by
  intro m1 m2 h
  induction m2 with
  | zero => have : m1 = 0 := by omega
            rw [this]
  | succ n ih =>
    rcases Nat.lt_or_ge m1 (n + 1) with h' | h'
    · exact le_trans (ih (by omega)) (monthSecs_le_succ y n)
    · have : m1 = n + 1 := by omega
      rw [this]

lemma monthSecs_13 (y : Nat) : monthSecs y 13 = days_of_the_year y * 86400 := by
  unfold monthSecs days_of_the_year
  rw [show (13 : Nat) - 1 = 12 from rfl,
    show List.range' 1 12 = [1,2,3,4,5,6,7,8,9,10,11,12] from by decide]
  cases h : leap_year y <;> simp [daysInMonthSpec, h]


lemma timestamp_eq_spec (dt : UtcDatetime) (h : Valid dt) :
    UtcDatetime.timestamp dt = some (Except.ok (epochSecondsSpec dt % U32)) := by
  obtain ⟨hy, hm1, hm12, hd1, hd2, hh, hmi, hs⟩ := h
  unfold UtcDatetime.timestamp
  rw [if_neg (by omega)]
  have hfun : (fun i => days_of_the_year i * 24 * 60 * 60)
      = (fun y => days_of_the_year y * 86400) := by
    funext i; ring
  have e1 : (List.range' 1970 (dt.year - 1970)).foldl
      (fun acc i => (acc + days_of_the_year i * 24 * 60 * 60) % U32) 0
      = yearSecs dt.year % U32 := by
    have h0 := foldl_add_mod U32 (fun i => days_of_the_year i * 24 * 60 * 60)
      (List.range' 1970 (dt.year - 1970)) 0
    rw [Nat.zero_mod] at h0
    rw [h0, Nat.zero_add, hfun]
    rfl
  have hmem : ∀ x ∈ List.range' 1 (dt.month - 1),
      days_of_the_month dt.year x = some (daysInMonthSpec dt.year x) := by
    intro x hx
    rw [List.mem_range'_1] at hx
    exact dim_some dt.year x (by omega) (by omega)
  have e2 : (List.range' 1 (dt.month - 1)).foldl
      (fun acc i => acc.bind fun a =>
        (days_of_the_month dt.year i).map fun dn => (a + dn * 24 * 60 * 60) % U32)
      (some (yearSecs dt.year % U32))
      = some ((List.range' 1 (dt.month - 1)).foldl
          (fun a i => (a + daysInMonthSpec dt.year i * 24 * 60 * 60) % U32)
          (yearSecs dt.year % U32)) :=
    foldl_bind_some (days_of_the_month dt.year) (daysInMonthSpec dt.year)
      (fun a dn => (a + dn * 24 * 60 * 60) % U32)
      (List.range' 1 (dt.month - 1)) hmem (yearSecs dt.year % U32)
  have hfun2 : (fun i => daysInMonthSpec dt.year i * 24 * 60 * 60)
      = (fun m => daysInMonthSpec dt.year m * 86400) := by
    funext i; ring
  have e3 : (List.range' 1 (dt.month - 1)).foldl
      (fun a i => (a + daysInMonthSpec dt.year i * 24 * 60 * 60) % U32)
      (yearSecs dt.year % U32)
      = (yearSecs dt.year + monthSecs dt.year dt.month) % U32 := by
    have h0 := foldl_add_mod U32 (fun i => daysInMonthSpec dt.year i * 24 * 60 * 60)
      (List.range' 1 (dt.month - 1)) (yearSecs dt.year)
    rw [h0, hfun2]
    rfl
  rw [e1, e2, e3]
  simp only [Option.map_some']
  have hday31 : dt.day ≤ 31 := le_trans hd2 (dim_le_31 dt.year dt.month)
  have hdaywrap : (dt.day + (U32 - 1)) % U32 = dt.day - 1 := by
    simp only [U32] at *
    omega
  rw [hdaywrap]
  refine congrArg some (congrArg Except.ok ?_)
  simp only [U32]
  unfold epochSecondsSpec
  omega


lemma new_year_err (y mo d h mi s : Nat) (h1 : y < 1970) :
    UtcDatetime.new y mo d h mi s = some (Except.error IllegalTimeError.YearNumberError) := by
  unfold UtcDatetime.new
  rw [if_pos h1]

lemma new_month_err (y mo d h mi s : Nat) (h1 : 1970 ≤ y) (h2 : mo = 0 ∨ 12 < mo) :
    UtcDatetime.new y mo d h mi s = some (Except.error IllegalTimeError.MonthNumberError) := by
  unfold UtcDatetime.new
  rw [if_neg (by omega), if_pos h2]

lemma new_day_err (y mo d h mi s : Nat) (h1 : 1970 ≤ y) (hmo1 : 1 ≤ mo) (hmo2 : mo ≤ 12)
    (hd : d = 0 ∨ daysInMonthSpec y mo < d) :
    UtcDatetime.new y mo d h mi s = some (Except.error IllegalTimeError.DayNumberError) := by
  unfold UtcDatetime.new
  rw [if_neg (by omega), if_neg (by omega), dim_some y mo hmo1 hmo2, Option.some_bind,
    if_pos hd]

lemma new_hour_err (y mo d h mi s : Nat) (h1 : 1970 ≤ y) (hmo1 : 1 ≤ mo) (hmo2 : mo ≤ 12)
    (hd1 : 1 ≤ d) (hd2 : d ≤ daysInMonthSpec y mo) (hh : 23 < h) :
    UtcDatetime.new y mo d h mi s = some (Except.error IllegalTimeError.HourNumberError) := by
  unfold UtcDatetime.new
  rw [if_neg (by omega), if_neg (by omega), dim_some y mo hmo1 hmo2, Option.some_bind,
    if_neg (by omega), if_pos hh]

lemma new_minute_err (y mo d h mi s : Nat) (h1 : 1970 ≤ y) (hmo1 : 1 ≤ mo) (hmo2 : mo ≤ 12)
    (hd1 : 1 ≤ d) (hd2 : d ≤ daysInMonthSpec y mo) (hh : h ≤ 23) (hmi : 59 < mi) :
    UtcDatetime.new y mo d h mi s = some (Except.error IllegalTimeError.MinuteNumberError) := by
  unfold UtcDatetime.new
  rw [if_neg (by omega), if_neg (by omega), dim_some y mo hmo1 hmo2, Option.some_bind,
    if_neg (by omega), if_neg (by omega), if_pos hmi]

lemma new_second_err (y mo d h mi s : Nat) (h1 : 1970 ≤ y) (hmo1 : 1 ≤ mo) (hmo2 : mo ≤ 12)
    (hd1 : 1 ≤ d) (hd2 : d ≤ daysInMonthSpec y mo) (hh : h ≤ 23) (hmi : mi ≤ 59) (hs : 59 < s) :
    UtcDatetime.new y mo d h mi s = some (Except.error IllegalTimeError.SecondNumberError) := by
  unfold UtcDatetime.new
  rw [if_neg (by omega), if_neg (by omega), dim_some y mo hmo1 hmo2, Option.some_bind,
    if_neg (by omega), if_neg (by omega), if_neg (by omega), if_pos hs]

lemma new_ok (y mo d h mi s : Nat) (h1 : 1970 ≤ y) (hmo1 : 1 ≤ mo) (hmo2 : mo ≤ 12)
    (hd1 : 1 ≤ d) (hd2 : d ≤ daysInMonthSpec y mo) (hh : h ≤ 23) (hmi : mi ≤ 59) (hs : s ≤ 59) :
    UtcDatetime.new y mo d h mi s = some (Except.ok ⟨y, mo, d, h, mi, s⟩) := by
  unfold UtcDatetime.new
  rw [if_neg (by omega), if_neg (by omega), dim_some y mo hmo1 hmo2, Option.some_bind,
    if_neg (by omega), if_neg (by omega), if_neg (by omega), if_neg (by omega)]

lemma new_ok_iff (y mo d h mi s : Nat) :
    UtcDatetime.new y mo d h mi s = some (Except.ok ⟨y, mo, d, h, mi, s⟩) ↔
      (1970 ≤ y ∧ 1 ≤ mo ∧ mo ≤ 12 ∧ 1 ≤ d ∧ d ≤ daysInMonthSpec y mo ∧
        h ≤ 23 ∧ mi ≤ 59 ∧ s ≤ 59) := by
  by_cases h1 : 1970 ≤ y
  · by_cases h2 : mo = 0 ∨ 12 < mo
    · rw [new_month_err y mo d h mi s h1 h2]
      simp only [Option.some.injEq]
      constructor
      · intro he; cases he
      · intro hr; omega
    · by_cases h3 : d = 0 ∨ daysInMonthSpec y mo < d
      · rw [new_day_err y mo d h mi s h1 (by omega) (by omega) h3]
        simp only [Option.some.injEq]
        constructor
        · intro he; cases he
        · intro hr; omega
      · by_cases h4 : 23 < h
        · rw [new_hour_err y mo d h mi s h1 (by omega) (by omega) (by omega) (by omega) h4]
          simp only [Option.some.injEq]
          constructor
          · intro he; cases he
          · intro hr; omega
        · by_cases h5 : 59 < mi
          · rw [new_minute_err y mo d h mi s h1 (by omega) (by omega) (by omega) (by omega)
              (by omega) h5]
            simp only [Option.some.injEq]
            constructor
            · intro he; cases he
            · intro hr; omega
          · by_cases h6 : 59 < s
            · rw [new_second_err y mo d h mi s h1 (by omega) (by omega) (by omega) (by omega)
                (by omega) (by omega) h6]
              simp only [Option.some.injEq]
              constructor
              · intro he; cases he
              · intro hr; omega
            · rw [new_ok y mo d h mi s h1 (by omega) (by omega) (by omega) (by omega)
                (by omega) (by omega) (by omega)]
              simp only [true_iff]
              omega
  · rw [new_year_err y mo d h mi s (by omega)]
    simp only [Option.some.injEq]
    constructor
    · intro he; cases he
    · intro hr; omega

lemma new_total (y mo d h mi s : Nat) : (UtcDatetime.new y mo d h mi s).isSome = true := by
  unfold UtcDatetime.new
  split
  · rfl
  · split
    · rfl
    · rename_i h1 h2
      rw [dim_some y mo (by omega) (by omega), Option.some_bind]
      split
      · rfl
      · split
        · rfl
        · split
          · rfl
          · split <;> rfl


lemma new_ok_inv (y mo d hr mi se : Nat) (dt : UtcDatetime)
    (hnew : UtcDatetime.new y mo d hr mi se = some (Except.ok dt)) :
    dt = ⟨y, mo, d, hr, mi, se⟩ ∧ Valid dt := by
  have hshape : dt = ⟨y, mo, d, hr, mi, se⟩ := by
    unfold UtcDatetime.new at hnew
    split at hnew
    · simp at hnew
    · split at hnew
      · simp at hnew
      · rename_i h1 h2
        rw [dim_some y mo (by omega) (by omega), Option.some_bind] at hnew
        split at hnew
        · simp at hnew
        · split at hnew
          · simp at hnew
          · split at hnew
            · simp at hnew
            · split at hnew
              · simp at hnew
              · simp only [Option.some.injEq, Except.ok.injEq] at hnew
                exact hnew.symm
  subst hshape
  refine ⟨rfl, ?_⟩
  exact (new_ok_iff y mo d hr mi se).mp hnew

lemma weekday_of_timestamp (dt : UtcDatetime) (ts : Nat)
    (h : UtcDatetime.timestamp dt = some (Except.ok ts)) :
    UtcDatetime.weekday dt = some ((4 + ts % 604800 / 86400) % 7) := by
  unfold UtcDatetime.weekday
  rw [h, Option.some_bind]

lemma fromString_len_ne (s : String) (h : (tokens s.data).length ≠ 6) :
    UtcDatetime.fromString s = some (Except.error IllegalTimeError.TimeStringError) := by
  unfold UtcDatetime.fromString
  rw [if_pos h]

lemma fromString_eq_new (s : String) (t0 t1 t2 t3 t4 t5 : List Char)
    (htok : tokens s.data = [t0, t1, t2, t3, t4, t5])
    (y mo d hr mi se : Nat)
    (h0 : parseBounded 65535 t0 = some y) (h1 : parseBounded 255 t1 = some mo)
    (h2 : parseBounded 255 t2 = some d) (h3 : parseBounded 255 t3 = some hr)
    (h4 : parseBounded 255 t4 = some mi) (h5 : parseBounded 255 t5 = some se) :
    UtcDatetime.fromString s = UtcDatetime.new y mo d hr mi se := by
  unfold UtcDatetime.fromString
  rw [htok]
  rw [if_neg (by simp)]
  simp only [List.get?, Option.some_bind, h0, h1, h2, h3, h4, h5]

lemma fromString_ok_inv (s : String) (dt : UtcDatetime)
    (h : UtcDatetime.fromString s = some (Except.ok dt)) :
    ∃ y mo d hr mi se, UtcDatetime.new y mo d hr mi se = some (Except.ok dt) := by
  unfold UtcDatetime.fromString at h
  split at h
  · simp at h
  · split at h
    · exact ⟨_, _, _, _, _, _, h⟩
    · simp at h


lemma then_eq_lt (o1 o2 : Ordering) :
    o1.then o2 = Ordering.lt ↔ o1 = Ordering.lt ∨ (o1 = Ordering.eq ∧ o2 = Ordering.lt) := by
  cases o1 <;> simp [Ordering.then]

lemma then_eq_eq (o1 o2 : Ordering) :
    o1.then o2 = Ordering.eq ↔ o1 = Ordering.eq ∧ o2 = Ordering.eq := by
  cases o1 <;> simp [Ordering.then]

lemma then_eq_gt (o1 o2 : Ordering) :
    o1.then o2 = Ordering.gt ↔ o1 = Ordering.gt ∨ (o1 = Ordering.eq ∧ o2 = Ordering.gt) := by
  cases o1 <;> simp [Ordering.then]

lemma fieldCmp_lt_iff (a b : UtcDatetime) : fieldCmp a b = Ordering.lt ↔ lexLt a b := by
  unfold fieldCmp lexLt
  simp only [then_eq_lt, Nat.compare_eq_lt, Nat.compare_eq_eq]

lemma fieldCmp_eq_iff (a b : UtcDatetime) : fieldCmp a b = Ordering.eq ↔ a = b := by
  unfold fieldCmp
  simp only [then_eq_eq, Nat.compare_eq_eq]
  constructor
  · intro h
    obtain ⟨h1, h2, h3, h4, h5, h6⟩ := h
    obtain ⟨a1, a2, a3, a4, a5, a6⟩ := a
    obtain ⟨b1, b2, b3, b4, b5, b6⟩ := b
    simp only [UtcDatetime.mk.injEq]
    exact ⟨h1, h2, h3, h4, h5, h6⟩
  · rintro rfl
    exact ⟨rfl, rfl, rfl, rfl, rfl, rfl⟩

lemma fieldCmp_gt_iff (a b : UtcDatetime) : fieldCmp a b = Ordering.gt ↔ lexLt b a := by
  unfold fieldCmp lexLt
  simp only [then_eq_gt, Nat.compare_eq_gt, Nat.compare_eq_eq]
  constructor
  · intro h
    tauto
  · intro h
    tauto

lemma epoch_lt_of_lexLt : ∀ a b : UtcDatetime, Valid a → Valid b → lexLt a b →
    epochSecondsSpec a < epochSecondsSpec b := by
  rintro ⟨y1, m1, d1, h1, mi1, s1⟩ ⟨y2, m2, d2, h2, mi2, s2⟩ hva hvb hlex
  obtain ⟨hay, ham1, ham12, had1, had2, hah, hami, has⟩ := hva
  obtain ⟨hby, hbm1, hbm12, hbd1, hbd2, hbh, hbmi, hbs⟩ := hvb
  unfold epochSecondsSpec
  simp only at *
  unfold lexLt at hlex
  simp only at hlex
  rcases hlex with hy | ⟨rfl, hm | ⟨rfl, hd | ⟨rfl, hh | ⟨rfl, hmi | ⟨rfl, hs⟩⟩⟩⟩⟩
  · have hdm : (d1 - 1) * 86400 + h1 * 3600 + mi1 * 60 + s1
        < daysInMonthSpec y1 m1 * 86400 := by
      have := dim_pos y1 m1
      omega
    have hms : monthSecs y1 m1 + daysInMonthSpec y1 m1 * 86400
        ≤ days_of_the_year y1 * 86400 := by
      rw [← monthSecs_succ y1 m1 ham1, ← monthSecs_13 y1]
      exact monthSecs_mono y1 (by omega)
    have hys : yearSecs y1 + days_of_the_year y1 * 86400 ≤ yearSecs y2 := by
      rw [← yearSecs_succ y1 hay]
      exact yearSecs_mono (by omega)
    omega
  · have hdm : (d1 - 1) * 86400 + h1 * 3600 + mi1 * 60 + s1
        < daysInMonthSpec y1 m1 * 86400 := by
      have := dim_pos y1 m1
      omega
    have hms : monthSecs y1 m1 + daysInMonthSpec y1 m1 * 86400 ≤ monthSecs y1 m2 := by
      rw [← monthSecs_succ y1 m1 ham1]
      exact monthSecs_mono y1 (by omega)
    omega
  · omega
  · omega
  · omega
  · omega

lemma fieldCmp_lt_iff_epoch (a b : UtcDatetime) (ha : Valid a) (hb : Valid b) :
    fieldCmp a b = Ordering.lt ↔ epochSecondsSpec a < epochSecondsSpec b := by
  constructor
  · intro h
    exact epoch_lt_of_lexLt a b ha hb ((fieldCmp_lt_iff a b).mp h)
  · intro h
    cases hc : fieldCmp a b with
    | lt => rfl
    | eq =>
      rw [(fieldCmp_eq_iff a b).mp hc] at h
      omega
    | gt =>
      have := epoch_lt_of_lexLt b a hb ha ((fieldCmp_gt_iff a b).mp hc)
      omega

lemma tokensAux_eq_spec : ∀ (s : List Char) (acc : List Char),
    (∀ c ∈ s, isSplitChar c = !isDigitChar c) →
    tokensAux s acc = tokensSpecAux s acc := by
  intro s
  induction s with
  | nil => intro acc h; rfl
  | cons c cs ih =>
    intro acc h
    have hc : isSplitChar c = !isDigitChar c := h c (List.mem_cons_self c cs)
    have hrest : ∀ x ∈ cs, isSplitChar x = !isDigitChar x :=
      fun x hx => h x (List.mem_cons_of_mem c hx)
    unfold tokensAux tokensSpecAux
    rw [hc]
    by_cases hsep : (!isDigitChar c) = true
    · rw [if_pos hsep, if_pos hsep]
      by_cases hacc : acc.isEmpty = true
      · rw [if_pos hacc, if_pos hacc]
        exact ih [] hrest
      · rw [if_neg hacc, if_neg hacc, ih [] hrest]
    · rw [if_neg hsep, if_neg hsep]
      exact ih (c :: acc) hrest

lemma tokens_eq_spec (s : List Char) (h : ∀ c ∈ s, isSplitChar c = !isDigitChar c) :
    tokens s = tokensSpec s :=
  tokensAux_eq_spec s [] h

/-! ## Claim theorems -/

/-- C1: for all `u16`/`u8` inputs, `new` returns `Ok` carrying exactly the six
input fields iff year ≥ 1970, 1 ≤ month ≤ 12, 1 ≤ day ≤ days-in-month,
hour ≤ 23, minute ≤ 59 and second ≤ 59; otherwise it returns the error of the
first failing check in the fixed order year, month, day, hour, minute,
second (so month=13 with day=99 yields the month error, not the day error). -/
theorem new_validates_in_order (y mo d hr mi se : Nat)
    (hy : y < 65536) (hmo : mo < 256) (hd : d < 256) (hh : hr < 256)
    (hmi : mi < 256) (hse : se < 256) :
    (UtcDatetime.new y mo d hr mi se = some (Except.ok ⟨y, mo, d, hr, mi, se⟩) ↔
      (1970 ≤ y ∧ 1 ≤ mo ∧ mo ≤ 12 ∧ 1 ≤ d ∧ d ≤ daysInMonthSpec y mo ∧
        hr ≤ 23 ∧ mi ≤ 59 ∧ se ≤ 59))
    ∧ (y < 1970 →
      UtcDatetime.new y mo d hr mi se = some (Except.error IllegalTimeError.YearNumberError))
    ∧ (1970 ≤ y → (mo = 0 ∨ 12 < mo) →
      UtcDatetime.new y mo d hr mi se = some (Except.error IllegalTimeError.MonthNumberError))
    ∧ (1970 ≤ y → 1 ≤ mo → mo ≤ 12 → (d = 0 ∨ daysInMonthSpec y mo < d) →
      UtcDatetime.new y mo d hr mi se = some (Except.error IllegalTimeError.DayNumberError))
    ∧ (1970 ≤ y → 1 ≤ mo → mo ≤ 12 → 1 ≤ d → d ≤ daysInMonthSpec y mo → 23 < hr →
      UtcDatetime.new y mo d hr mi se = some (Except.error IllegalTimeError.HourNumberError))
    ∧ (1970 ≤ y → 1 ≤ mo → mo ≤ 12 → 1 ≤ d → d ≤ daysInMonthSpec y mo → hr ≤ 23 → 59 < mi →
      UtcDatetime.new y mo d hr mi se = some (Except.error IllegalTimeError.MinuteNumberError))
    ∧ (1970 ≤ y → 1 ≤ mo → mo ≤ 12 → 1 ≤ d → d ≤ daysInMonthSpec y mo → hr ≤ 23 → mi ≤ 59 →
        59 < se →
      UtcDatetime.new y mo d hr mi se = some (Except.error IllegalTimeError.SecondNumberError)) :=
  ⟨new_ok_iff y mo d hr mi se,
   fun h1 => new_year_err y mo d hr mi se h1,
   fun h1 h2 => new_month_err y mo d hr mi se h1 h2,
   fun h1 h2 h3 h4 => new_day_err y mo d hr mi se h1 h2 h3 h4,
   fun h1 h2 h3 h4 h5 h6 => new_hour_err y mo d hr mi se h1 h2 h3 h4 h5 h6,
   fun h1 h2 h3 h4 h5 h6 h7 => new_minute_err y mo d hr mi se h1 h2 h3 h4 h5 h6 h7,
   fun h1 h2 h3 h4 h5 h6 h7 h8 => new_second_err y mo d hr mi se h1 h2 h3 h4 h5 h6 h7 h8⟩

/-- Witness for C1 at concrete inputs: a valid datetime round-trips, and
month=13 with day=99 yields the month error, not the day error. -/
theorem new_validates_in_order_witness :
    UtcDatetime.new 2020 2 29 13 14 15 = some (Except.ok ⟨2020, 2, 29, 13, 14, 15⟩)
    ∧ UtcDatetime.new 2020 13 99 0 0 0
        = some (Except.error IllegalTimeError.MonthNumberError) :=
  ⟨(new_validates_in_order 2020 2 29 13 14 15 (by decide) (by decide) (by decide) (by decide)
      (by decide) (by decide)).1.mpr (by decide),
   (new_validates_in_order 2020 13 99 0 0 0 (by decide) (by decide) (by decide) (by decide)
      (by decide) (by decide)).2.2.1 (by decide) (by decide)⟩

/-- C2: for every datetime satisfying the construction invariants, `timestamp`
returns `Ok` of the exact epoch-second sum truncated modulo `2^32`; in
particular the timestamp of (2020,2,2,2,2,2) is 1580608922. -/
theorem timestamp_matches_exact_sum :
    (∀ dt : UtcDatetime, Valid dt →
      UtcDatetime.timestamp dt = some (Except.ok (epochSecondsSpec dt % U32)))
    ∧ UtcDatetime.timestamp ⟨2020, 2, 2, 2, 2, 2⟩ = some (Except.ok 1580608922) :=
  ⟨timestamp_eq_spec, by decide⟩

/-- Witness for C2 at a concrete valid datetime. -/
theorem timestamp_matches_exact_sum_witness :
    UtcDatetime.timestamp ⟨2021, 3, 4, 5, 6, 7⟩
      = some (Except.ok (epochSecondsSpec ⟨2021, 3, 4, 5, 6, 7⟩ % U32)) :=
  timestamp_matches_exact_sum.1 ⟨2021, 3, 4, 5, 6, 7⟩ (by decide)

/-- C3: on every datetime constructed through `new` or `from_string`,
`weekday` never fails and returns `(4 + ts % 604800 / 86400) % 7 ∈ [0,6]`
where `ts` is the timestamp; with the documented concrete values. -/
theorem weekday_total_and_formula :
    (∀ (y mo d hr mi se : Nat) (dt : UtcDatetime),
      UtcDatetime.new y mo d hr mi se = some (Except.ok dt) →
      ∃ ts, UtcDatetime.timestamp dt = some (Except.ok ts) ∧
        UtcDatetime.weekday dt = some ((4 + ts % 604800 / 86400) % 7) ∧
        (4 + ts % 604800 / 86400) % 7 ≤ 6)
    ∧ (∀ (s : String) (dt : UtcDatetime),
      UtcDatetime.fromString s = some (Except.ok dt) →
      ∃ ts, UtcDatetime.timestamp dt = some (Except.ok ts) ∧
        UtcDatetime.weekday dt = some ((4 + ts % 604800 / 86400) % 7) ∧
        (4 + ts % 604800 / 86400) % 7 ≤ 6)
    ∧ UtcDatetime.weekday ⟨2021, 11, 15, 0, 0, 0⟩ = some 1
    ∧ UtcDatetime.weekday ⟨2020, 4, 28, 12, 12, 12⟩ = some 2
    ∧ UtcDatetime.weekday ⟨1970, 1, 1, 0, 0, 0⟩ = some 4 := by
  have key : ∀ dt : UtcDatetime, Valid dt →
      ∃ ts, UtcDatetime.timestamp dt = some (Except.ok ts) ∧
        UtcDatetime.weekday dt = some ((4 + ts % 604800 / 86400) % 7) ∧
        (4 + ts % 604800 / 86400) % 7 ≤ 6 := by
    intro dt hv
    refine ⟨epochSecondsSpec dt % U32, timestamp_eq_spec dt hv,
      weekday_of_timestamp dt _ (timestamp_eq_spec dt hv), ?_⟩
    omega
  refine ⟨fun y mo d hr mi se dt h => key dt (new_ok_inv y mo d hr mi se dt h).2,
    fun s dt h => ?_, by decide, by decide, by decide⟩
  obtain ⟨y, mo, d, hr, mi, se, hnew⟩ := fromString_ok_inv s dt h
  exact key dt (new_ok_inv y mo d hr mi se dt hnew).2

/-- Witness for C3 at a datetime constructed by `new`. -/
theorem weekday_total_and_formula_witness :
    ∃ ts, UtcDatetime.timestamp ⟨2022, 5, 6, 7, 8, 9⟩ = some (Except.ok ts) ∧
      UtcDatetime.weekday ⟨2022, 5, 6, 7, 8, 9⟩ = some ((4 + ts % 604800 / 86400) % 7) ∧
      (4 + ts % 604800 / 86400) % 7 ≤ 6 :=
  weekday_total_and_formula.1 2022 5 6 7 8 9 ⟨2022, 5, 6, 7, 8, 9⟩ (by decide)

/-- C4: `from_string` returns `TimeStringError` whenever the input does not
split into exactly 6 non-empty tokens, and with exactly 6 tokens that each
parse within their field's width it returns exactly the result of `new` on
the six parsed integers. -/
theorem fromString_token_contract :
    ∀ s : String,
      ((tokens s.data).length ≠ 6 →
        UtcDatetime.fromString s = some (Except.error IllegalTimeError.TimeStringError))
      ∧ (∀ (t0 t1 t2 t3 t4 t5 : List Char) (y mo d hr mi se : Nat),
          tokens s.data = [t0, t1, t2, t3, t4, t5] →
          parseBounded 65535 t0 = some y → parseBounded 255 t1 = some mo →
          parseBounded 255 t2 = some d → parseBounded 255 t3 = some hr →
          parseBounded 255 t4 = some mi → parseBounded 255 t5 = some se →
          UtcDatetime.fromString s = UtcDatetime.new y mo d hr mi se) :=
  fun s =>
    ⟨fromString_len_ne s,
     fun t0 t1 t2 t3 t4 t5 y mo d hr mi se htok h0 h1 h2 h3 h4 h5 =>
       fromString_eq_new s t0 t1 t2 t3 t4 t5 htok y mo d hr mi se h0 h1 h2 h3 h4 h5⟩

/-- Witness for C4: a 3-token string gives `TimeStringError`, and a 6-token
string gives exactly the result of `new`. -/
theorem fromString_token_contract_witness :
    UtcDatetime.fromString "2020-12-31" = some (Except.error IllegalTimeError.TimeStringError)
    ∧ UtcDatetime.fromString "2020-12-31 23:59:59" = UtcDatetime.new 2020 12 31 23 59 59 :=
  ⟨(fromString_token_contract "2020-12-31").1 (by decide),
   (fromString_token_contract "2020-12-31 23:59:59").2 "2020".data "12".data "31".data
     "23".data "59".data "59".data 2020 12 31 23 59 59 (by decide) (by decide) (by decide)
     (by decide) (by decide) (by decide) (by decide)⟩

/-- C5 evaluated at the failing input: on six tokens where the year token
exceeds `u16::MAX`, the source's `parse::<u16>().unwrap()` panics (`none` in
the model) instead of returning any error value. -/
theorem fromString_overflow_panics :
    tokens "99999-1-1 0:0:0".data
      = ["99999".data, "1".data, "1".data, "0".data, "0".data, "0".data]
    ∧ parseBounded 65535 "99999".data = none
    ∧ UtcDatetime.fromString "99999-1-1 0:0:0" = none := by
  decide

/-- Counterexample to C6 as stated: the character 'ı' (U+0131) is not an
ASCII digit, yet the code does not treat it as a separator, because its low
byte (49) lies in the digit range; with 'ı' as the separator the whole input
stays one token and `from_string` rejects it instead of agreeing with
`new 2021 2 28 23 59 0`. -/
theorem fromString_split_counterexample :
    isSplitChar 'ı' = false
    ∧ UtcDatetime.fromString "2021ı2ı28ı23ı59ı0"
        = some (Except.error IllegalTimeError.TimeStringError)
    ∧ UtcDatetime.new 2021 2 28 23 59 0 = some (Except.ok ⟨2021, 2, 28, 23, 59, 0⟩)
    ∧ UtcDatetime.fromString "2021ı2ı28ı23ı59ı0" ≠ UtcDatetime.new 2021 2 28 23 59 0 := by
  decide

/-- C6 as amended: `from_string` splits on every character whose low 8 bits
(the value of Rust's `as u8` cast) are outside the ASCII-digit range 48–57.
For strings in which a character's low byte lies in the digit range only when
the character is an actual ASCII digit, the tokens are exactly the maximal
runs of ASCII digits; this covers every ASCII character, and the CJK example
parses as claimed. -/
theorem fromString_split_amended :
    (∀ s : List Char, (∀ c ∈ s, isSplitChar c = !isDigitChar c) →
      tokens s = tokensSpec s)
    ∧ (∀ c : Char, c.toNat < 128 → isSplitChar c = !isDigitChar c)
    ∧ UtcDatetime.fromString "时间:2021年2月28日23点59分0秒"
        = UtcDatetime.new 2021 2 28 23 59 0 := by
  refine ⟨tokens_eq_spec, ?_, by decide⟩
  intro c hc
  unfold isSplitChar isDigitChar
  rw [Nat.mod_eq_of_lt (by omega)]
  by_cases h1 : c.toNat < 48 <;> by_cases h2 : 57 < c.toNat <;>
    simp [h1, h2] <;> omega

/-- Witness for C6's amended statement: the tokenizer agrees with the
maximal-digit-run tokenizer on an all-ASCII input. -/
theorem fromString_split_amended_witness :
    tokens "2020/12-31 23 59 59".data = tokensSpec "2020/12-31 23 59 59".data
    ∧ isSplitChar 'a' = !isDigitChar 'a' :=
  ⟨fromString_split_amended.1 "2020/12-31 23 59 59".data (by decide),
   fromString_split_amended.2.1 'a' (by decide)⟩

/-- C7: `days_of_the_month` returns 31 for {1,3,5,7,8,10,12}, 30 for
{4,6,9,11}, 29/28 for February depending on `leap_year`, whose rule is
(div by 4 and not by 100) or div by 400; with the documented examples. -/
theorem days_table_and_leap_rule :
    ∀ year : Nat,
      (∀ m, m = 1 ∨ m = 3 ∨ m = 5 ∨ m = 7 ∨ m = 8 ∨ m = 10 ∨ m = 12 →
        days_of_the_month year m = some 31)
      ∧ (∀ m, m = 4 ∨ m = 6 ∨ m = 9 ∨ m = 11 → days_of_the_month year m = some 30)
      ∧ days_of_the_month year 2 = some (if leap_year year then 29 else 28)
      ∧ (leap_year year = true ↔ ((year % 4 = 0 ∧ year % 100 ≠ 0) ∨ year % 400 = 0))
      ∧ days_of_the_month 2020 2 = some 29
      ∧ days_of_the_month 2020 3 = some 31
      ∧ days_of_the_month 2021 2 = some 28
      ∧ leap_year 2000 = true ∧ leap_year 2024 = true
      ∧ leap_year 1900 = false ∧ leap_year 2021 = false := by
  intro year
  refine ⟨?_, ?_, rfl, ?_, by decide, by decide, by decide, by decide, by decide,
    by decide, by decide⟩
  · rintro m (rfl | rfl | rfl | rfl | rfl | rfl | rfl) <;> rfl
  · rintro m (rfl | rfl | rfl | rfl) <;> rfl
  · simp [leap_year, Bool.or_eq_true, Bool.and_eq_true, beq_iff_eq, bne_iff_ne]

/-- Witness for C7 at concrete months of a symbolic-year instance. -/
theorem days_table_and_leap_rule_witness :
    days_of_the_month 1999 3 = some 31 ∧ days_of_the_month 1999 11 = some 30 :=
  ⟨(days_table_and_leap_rule 1999).1 3 (by decide),
   (days_table_and_leap_rule 1999).2.1 11 (by decide)⟩

/-- C8 evaluated at the failing inputs: the public `days_of_the_month`
panics (modelled as `none`) for month 0 or 13; it has no `MonthError`
result — its success type is a plain day count, contradicting the claim
that it fails with a typed `MonthError`. -/
theorem days_of_the_month_panics_out_of_range :
    days_of_the_month 2020 0 = none ∧ days_of_the_month 2020 13 = none := by
  decide

/-- C9: the derived fieldwise-lexicographic comparison coincides with
chronological order on valid datetimes: `a < b` iff the exact untruncated
epoch-second count of `a` is below that of `b`; and the documented example
(2020,4,28,12,30,12) > (2020,4,28,12,12,29) holds. -/
theorem ordering_lexicographic_chronological :
    (∀ a b : UtcDatetime, Valid a → Valid b →
      (fieldCmp a b = Ordering.lt ↔ epochSecondsSpec a < epochSecondsSpec b))
    ∧ fieldCmp ⟨2020, 4, 28, 12, 30, 12⟩ ⟨2020, 4, 28, 12, 12, 29⟩ = Ordering.gt :=
  ⟨fieldCmp_lt_iff_epoch, by decide⟩

/-- Witness for C9 at two concrete valid datetimes. -/
theorem ordering_lexicographic_chronological_witness :
    fieldCmp ⟨2020, 4, 28, 12, 12, 29⟩ ⟨2020, 4, 28, 12, 30, 12⟩ = Ordering.lt ↔
      epochSecondsSpec ⟨2020, 4, 28, 12, 12, 29⟩ < epochSecondsSpec ⟨2020, 4, 28, 12, 30, 12⟩ :=
  ordering_lexicographic_chronological.1 ⟨2020, 4, 28, 12, 12, 29⟩ ⟨2020, 4, 28, 12, 30, 12⟩
    (by decide) (by decide)

/-- C10: `new` is total — it always returns `some` result, because the month
range check precedes the `days_of_the_month` call, making the panic branch
unreachable from `new`. -/
theorem new_is_total : ∀ y mo d hr mi se : Nat,
    (UtcDatetime.new y mo d hr mi se).isSome = true :=
  new_total
